import Mathlib

/-!
Verification of the TOON encoding engine of `pydantic_toon.py`
(`ToonSerializer` and its helpers).

The embedding mirrors the Python source.  Python's dynamically typed
runtime values are modelled by the tagged union `Value`; the chain of
`isinstance` checks in `ToonSerializer._serialize_value` becomes a match
on that union.  Numeric values (`int` / `float` / `Decimal`) and temporal
values (`date` / `datetime`) are carried as the canonical text that
Python's `str(value)` / `value.isoformat()` produces for them, since the
serializer only ever passes such values straight through.  Strings are
`String`; records (Pydantic `BaseModel` instances) are ordered lists of
(field name, value) pairs, in declared field order, exactly as
`obj.model_fields` / `getattr` enumerate them; `dict` values are ordered
(insertion order) key/value lists; every other runtime value is carried
as its `str()` fallback text via the `other` constructor.
-/

inductive Value where
  | null
  | bool (b : Bool)
  | num (s : String)
  | temporal (s : String)
  | str (s : String)
  | record (fields : List (String × Value))
  | list (elems : List Value)
  | dict (entries : List (String × Value))
  | other (s : String)

/-- `isinstance(value, BaseModel)` for the embedded union. -/
def Value.isRecord : Value → Bool
  | .record _ => true
  | _ => false

/-- `isinstance(value, list)` for the embedded union. -/
def Value.isList : Value → Bool
  | .list _ => true
  | _ => false

/-- The ordered field list of a record value (empty for non-records);
only ever applied under an `isRecord` check. -/
def Value.recFields : Value → List (String × Value)
  | .record fs => fs
  | _ => []

/-- Python ASCII whitespace, the characters `str.strip()` removes.
(Python also strips some rarer Unicode space characters, which this
model does not cover.) -/
def pySpace (c : Char) : Bool :=
  c == ' ' || c == '\t' || c == '\n' || c == '\r' || c == '\x0b' || c == '\x0c'

/-- Python `value.strip()`: drop leading and trailing whitespace. -/
def pyStrip (s : String) : String :=
  String.mk (((s.data.dropWhile pySpace).reverse.dropWhile pySpace).reverse)

/-- Replace each character by the character list `f c` assigns to it. -/
def expandChars (f : Char → List Char) : List Char → List Char
  | [] => []
  | c :: rest => f c ++ expandChars f rest

/-- Python `s.replace(a, b)` for a single-character pattern `a`:
every occurrence of `a` is replaced by `b`, left to right. -/
def pyReplaceChar (s : String) (a : Char) (b : String) : String :=
  String.mk (expandChars (fun c => if c == a then b.data else [c]) s.data)

/-- The quoting trigger of the string branch of `_serialize_value`
(pydantic_toon.py line 75): `value` contains a comma, contains a
newline, or differs from `value.strip()`. -/
def needsQuoting (s : String) : Bool :=
  s.data.any (· == ',') || s.data.any (· == '\n') || !(pyStrip s == s)

/-- The escaped body built at pydantic_toon.py line 77:
`value.replace('\\', '\\\\').replace('"', '\\"')`. -/
def escapedBody (s : String) : String :=
  pyReplaceChar (pyReplaceChar s '\\' "\\\\") '"' "\\\""

/-- The quoted form returned at pydantic_toon.py line 78: the escaped
body wrapped in double quotes. -/
def escapeQuote (s : String) : String :=
  "\"" ++ escapedBody s ++ "\""

/-- The string branch of `_serialize_value` (pydantic_toon.py lines
73-79): quote when triggered, otherwise return the text unchanged. -/
def encodeText (s : String) : String :=
  if needsQuoting s then escapeQuote s else s

/-- Modelled from the spec (section 4.2), for refinement comparison
with the code's `escapeQuote`: the quoted-form construction, in order:
(1) replace every backslash with two backslashes; (2) replace every
double-quote with backslash + double-quote; (3) wrap the result in
double quotes. -/
def specQuotedForm (s : String) : String :=
  "\"" ++ pyReplaceChar (pyReplaceChar s '\\' "\\\\") '"' "\\\"" ++ "\""

/-- `indent = "  " * indent_level` (pydantic_toon.py line 51):
two literal space characters per nesting level. -/
def ind (L : Nat) : String := String.mk (List.replicate (2 * L) ' ')

/-- The `'\n' in serialized_val` test used to detect multi-line child
encodings (pydantic_toon.py lines 105 and 136). -/
def hasNL (s : String) : Bool := s.data.any (· == '\n')

/-- Python `sep.join(xs)`. -/
def joinSep (sep : String) : List String → String
  | [] => ""
  | [x] => x
  | x :: y :: rest => x ++ sep ++ joinSep sep (y :: rest)

/-! Pydantic `model.model_dump()` (and its recursive effect on nested
values): `BaseModel` instances become plain dicts, recursively; lists
are dumped elementwise; scalars are unchanged. -/
mutual

def model_dump : Value → Value
  | .null => .null
  | .bool b => .bool b
  | .num s => .num s
  | .temporal s => .temporal s
  | .str s => .str s
  | .record fs => .dict (model_dump_fields fs)
  | .list vs => .list (model_dump_list vs)
  | .dict fs => .dict (model_dump_fields fs)
  | .other s => .other s

def model_dump_fields : List (String × Value) → List (String × Value)
  | [] => []
  | (n, v) :: rest => (n, model_dump v) :: model_dump_fields rest

def model_dump_list : List Value → List Value
  | [] => []
  | v :: rest => model_dump v :: model_dump_list rest

end

/-! `ToonSerializer._serialize_value` applied to a value taken from a
`model_dump()` result (as happens for every table cell built by
`_serialize_list_of_models`, lines 174-179).  Dumped values contain no
`BaseModel` instance, so the `BaseModel` branch renders via the dict
branch (a dumped record IS a dict) and a non-empty dumped list never
satisfies `all(isinstance(item, BaseModel))`, hence always takes the
flat bracketed path.  The lemma `sdv_eq_serialize_value` below proves
this function equal to `serialize_value (model_dump v)`. -/
mutual

def sdv : Value → Nat → String
  | .null, _ => "null"
  | .bool b, _ => if b then "true" else "false"
  | .num s, _ => s
  | .temporal s, _ => s
  | .str s, _ => encodeText s
  | .record fs, L => joinSep "\n" (sdvEntries fs L)
  | .list [], _ => "[]"
  | .list (v :: rest), _ => "[" ++ joinSep "," (sdvItems (v :: rest)) ++ "]"
  | .dict fs, L => joinSep "\n" (sdvEntries fs L)
  | .other s, _ => s

def sdvEntries : List (String × Value) → Nat → List String
  | [], _ => []
  | (k, v) :: rest, L =>
      let sval := sdv v (L + 1)
      (if hasNL sval then
        [ind L ++ "  " ++ k ++ ":", ind L ++ "    " ++ sval]
       else
        [ind L ++ "  " ++ k ++ ": " ++ sval]) ++ sdvEntries rest L

def sdvItems : List Value → List String
  | [] => []
  | v :: rest => sdv v 0 :: sdvItems rest

end

/-- `data.get(field)` on a `model_dump()` dict, keyed by field name
(first match; model field names are unique). -/
def getField (fs : List (String × Value)) (f : String) : Option Value :=
  (fs.find? (fun p => p.1 == f)).map Prod.snd

/-- One table cell of `_serialize_list_of_models` (lines 177-179):
`value = data.get(field)` followed by `_serialize_value(value, 0)`,
where `data = model.model_dump()`.  `m` here is the model's raw field
list; the dump of the looked-up value is fused into `sdv`
(`data.get(field)` equals the dump of the raw lookup, see
`getField_model_dump_fields` below), and a missing field yields `None`,
serialized as `"null"`. -/
def rowCell (m : List (String × Value)) (f : String) : String :=
  sdv ((getField m f).getD .null) 0

/-- `ToonSerializer._serialize_list_of_models` (pydantic_toon.py lines
143-184).  Takes the raw field lists of the models.  An empty list
yields `"[]"` (line 159).  Otherwise: field names from the first
model's `model_dump()` keys (line 166); a header
`{indent}[count]{f1,...,fk}:` (line 169); one row per model at
`{indent}  `, the comma-join of the serialized `data.get(field)`
values (lines 172-182); all joined by newlines (line 184). -/
def serialize_list_of_models (models : List (List (String × Value))) (L : Nat) : String :=
  match models with
  | [] => "[]"
  | first :: _ =>
    let fields := (model_dump_fields first).map Prod.fst
    let header := ind L ++ "[" ++ Nat.repr models.length ++ "]\x7b" ++ joinSep "," fields ++ "\x7d:"
    let rows := models.map (fun m =>
      ind L ++ "  " ++ joinSep "," (fields.map (fun f => rowCell m f)))
    joinSep "\n" (header :: rows)

/-! `ToonSerializer._serialize_value` (pydantic_toon.py lines 39-113)
together with `_serialize_object` (lines 115-141), on raw values.
`objLines` is the field loop of `_serialize_object`: each field value
serialized at `indent_level + 1`, emitted as
`{indent}{name}:{val}` when the child is multi-line and
`{indent}{name}: {val}` otherwise.  `dictLines` is the loop of the dict
branch (lines 101-110), emitting `{indent}  {key}: {val}` or the pair
`{indent}  {key}:` / `{indent}    {val}`.  A non-empty list whose
elements are all `BaseModel` is rendered as a newline followed by the
tabular form at the same level (lines 91-94); any other non-empty list
is the flat bracketed join of its elements serialized at level 0
(lines 96-98); an unrecognized value falls back to its `str()` text
(line 113). -/
mutual

def serialize_value : Value → Nat → String
  | .null, _ => "null"
  | .bool b, _ => if b then "true" else "false"
  | .num s, _ => s
  | .temporal s, _ => s
  | .str s, _ => encodeText s
  | .record fs, L => joinSep "\n" (objLines fs L)
  | .list [], _ => "[]"
  | .list (v :: rest), L =>
      if (v :: rest).all Value.isRecord then
        "\n" ++ serialize_list_of_models ((v :: rest).map Value.recFields) L
      else
        "[" ++ joinSep "," (flatItems (v :: rest)) ++ "]"
  | .dict fs, L => joinSep "\n" (dictLines fs L)
  | .other s, _ => s

def dictLines : List (String × Value) → Nat → List String
  | [], _ => []
  | (k, v) :: rest, L =>
      let sval := serialize_value v (L + 1)
      (if hasNL sval then
        [ind L ++ "  " ++ k ++ ":", ind L ++ "    " ++ sval]
       else
        [ind L ++ "  " ++ k ++ ": " ++ sval]) ++ dictLines rest L

def objLines : List (String × Value) → Nat → List String
  | [], _ => []
  | (name, v) :: rest, L =>
      let sval := serialize_value v (L + 1)
      (if hasNL sval then ind L ++ name ++ ":" ++ sval
       else ind L ++ name ++ ": " ++ sval) :: objLines rest L

def flatItems : List Value → List String
  | [] => []
  | v :: rest => serialize_value v 0 :: flatItems rest

end

/-- `ToonSerializer._serialize_object` (pydantic_toon.py lines
115-141): the newline-join of the per-field lines. -/
def serialize_object (fs : List (String × Value)) (L : Nat) : String :=
  joinSep "\n" (objLines fs L)

/-- The class name part of Python's `f"Unsupported type: {type(data)}"`
message (line 210).  Python renders the full `<class '...'>` repr; this
model keeps just a class name.  Numeric and temporal values are carried
only as canonical text, so their exact Python class is not modelled. -/
def pyTypeName : Value → String
  | .null => "NoneType"
  | .bool _ => "bool"
  | .num _ => "numeric"
  | .temporal _ => "temporal"
  | .str _ => "str"
  | .record _ => "BaseModel"
  | .list _ => "list"
  | .dict _ => "dict"
  | .other _ => "object"

/-- `ToonSerializer.serialize` (pydantic_toon.py lines 186-210), the
public entry point: a list whose elements are all `BaseModel` goes to
the tabular encoder; a list with any other element raises
`ValueError("All items in list must be Pydantic models")`; a single
`BaseModel` goes to the object encoder; anything else raises
`ValueError(f"Unsupported type: {type(data)}")`.  Raising is modelled
by `Except.error` carrying the message. -/
def serialize (data : Value) (L : Nat) : Except String String :=
  match data with
  | .list l =>
      if l.all Value.isRecord then
        .ok (serialize_list_of_models (l.map Value.recFields) L)
      else
        .error "All items in list must be Pydantic models"
  | .record fs => .ok (serialize_object fs L)
  | v => .error ("Unsupported type: " ++ pyTypeName v)

/-- Split a character list at newline characters (every physical line
of the final text, in order). -/
def splitNL : List Char → List (List Char)
  | [] => [[]]
  | c :: rest =>
      if c = '\n' then [] :: splitNL rest
      else
        match splitNL rest with
        | [] => [[c]]
        | l :: ls => (c :: l) :: ls

/-- The physical lines of an emitted text. -/
def physLines (s : String) : List String := (splitNL s.data).map String.mk

/-! Basic facts about the string helpers. -/

theorem mk_data (s : String) : String.mk s.data = s := rfl

theorem hasNL_append (a b : String) : hasNL (a ++ b) = (hasNL a || hasNL b) := by
  simp [hasNL, String.data_append, List.any_append]

theorem hasNL_mk (l : List Char) : hasNL (String.mk l) = l.any (· == '\n') := rfl

theorem noNL_iff (s : String) : hasNL s = false ↔ ∀ c ∈ s.data, c ≠ '\n' := by
  simp [hasNL]

theorem hasNL_ind (L : Nat) : hasNL (ind L) = false := by
  rw [ind, hasNL_mk]
  simp

theorem ind_succ (L : Nat) : ind (L + 1) = ind L ++ "  " := by
  have h2 : 2 * (L + 1) = 2 * L + 2 := by ring
  show String.mk (List.replicate (2 * (L + 1)) ' ') = _
  rw [h2, List.replicate_add]
  rfl

theorem splitNL_noNL (l : List Char) (h : ∀ c ∈ l, c ≠ '\n') : splitNL l = [l] := by
  induction l with
  | nil => rfl
  | cons c rest ih =>
      have hc : c ≠ '\n' := h c (by simp)
      rw [splitNL, if_neg hc, ih (fun x hx => h x (by simp [hx]))]

theorem splitNL_append (a b : List Char) (h : ∀ c ∈ a, c ≠ '\n') :
    splitNL (a ++ '\n' :: b) = a :: splitNL b := by
  induction a with
  | nil =>
      show splitNL ('\n' :: b) = [] :: splitNL b
      rw [splitNL, if_pos rfl]
  | cons c rest ih =>
      have hc : c ≠ '\n' := h c (by simp)
      show splitNL (c :: (rest ++ '\n' :: b)) = (c :: rest) :: splitNL b
      rw [splitNL, if_neg hc, ih (fun x hx => h x (by simp [hx]))]

theorem splitNL_ne_nil (l : List Char) : splitNL l ≠ [] := by
  cases l with
  | nil => simp [splitNL]
  | cons c rest =>
      rw [splitNL]
      by_cases hc : c = '\n'
      · simp [hc]
      · rw [if_neg hc]
        rcases h : splitNL rest with _ | ⟨x, xs⟩ <;> simp

theorem splitNL_length (l : List Char) : (splitNL l).length = 1 + l.count '\n' := by
  induction l with
  | nil => rfl
  | cons c rest ih =>
      by_cases hc : c = '\n'
      · subst hc
        rw [splitNL, if_pos rfl]
        simp only [List.length_cons, List.count_cons, ih]
        simp
        ring
      · rw [splitNL, if_neg hc]
        rcases h : splitNL rest with _ | ⟨x, xs⟩
        · exact absurd h (splitNL_ne_nil rest)
        · rw [h] at ih
          simp only [List.length_cons] at ih
          have hcount : (c :: rest).count '\n' = rest.count '\n' := by
            simp [List.count_cons, hc]
          simp [hcount, ← ih]

theorem physLines_noNL (s : String) (h : hasNL s = false) : physLines s = [s] := by
  rw [physLines, splitNL_noNL s.data ((noNL_iff s).mp h)]
  simp [mk_data]

theorem data_newline_cons (b : String) : ("\n" ++ b).data = '\n' :: b.data := by
  rw [String.data_append]
  rfl

theorem physLines_joinSep (xs : List String) (hne : xs ≠ [])
    (h : ∀ x ∈ xs, hasNL x = false) : physLines (joinSep "\n" xs) = xs := by
  induction xs with
  | nil => exact absurd rfl hne
  | cons x rest ih =>
      cases rest with
      | nil => exact physLines_noNL x (h x (by simp))
      | cons y t =>
          have hx : hasNL x = false := h x (by simp)
          have hrest : physLines (joinSep "\n" (y :: t)) = y :: t :=
            ih (by simp) (fun z hz => h z (by simp [hz]))
          rw [joinSep]
          unfold physLines
          rw [String.append_assoc, String.data_append, data_newline_cons,
            splitNL_append _ _ ((noNL_iff x).mp hx)]
          simp only [List.map_cons, mk_data]
          rw [← physLines, hrest]

theorem hasNL_joinSep (sep : String) (xs : List String) (hsep : hasNL sep = false)
    (h : ∀ x ∈ xs, hasNL x = false) : hasNL (joinSep sep xs) = false := by
  induction xs with
  | nil => rfl
  | cons x rest ih =>
      cases rest with
      | nil => exact h x (by simp)
      | cons y t =>
          rw [joinSep, hasNL_append, hasNL_append, h x (by simp), hsep,
            ih (fun z hz => h z (by simp [hz]))]
          rfl

theorem digitChar_ne_nl (m : Nat) : Nat.digitChar m ≠ '\n' := by
  rcases Nat.lt_or_ge m 16 with h | h
  · interval_cases m <;> decide
  · have h16 : Nat.digitChar m = '*' := by
      unfold Nat.digitChar
      repeat rw [if_neg (by omega)]
    rw [h16]
    decide

theorem toDigitsCore_ne_nl (f : Nat) : ∀ (n : Nat) (acc : List Char),
    (∀ c ∈ acc, c ≠ '\n') → ∀ c ∈ Nat.toDigitsCore 10 f n acc, c ≠ '\n' := by
  induction f with
  | zero => intro n acc hacc c hc; exact hacc c hc
  | succ f ih =>
      intro n acc hacc c hc
      rw [Nat.toDigitsCore] at hc
      split at hc
      · rcases List.mem_cons.mp hc with rfl | hmem
        · exact digitChar_ne_nl _
        · exact hacc c hmem
      · refine ih _ _ ?_ c hc
        intro z hz
        rcases List.mem_cons.mp hz with rfl | hmem
        · exact digitChar_ne_nl _
        · exact hacc z hmem

theorem hasNL_natRepr (n : Nat) : hasNL (Nat.repr n) = false := by
  rw [noNL_iff]
  intro c hc
  exact toDigitsCore_ne_nl (n + 1) n [] (by simp) c hc

/-! Facts about the string escaper. -/

theorem length_le_expandChars (f : Char → List Char) (hf : ∀ c, 1 ≤ (f c).length) :
    ∀ l : List Char, l.length ≤ (expandChars f l).length := by
  intro l
  induction l with
  | nil => simp [expandChars]
  | cons c rest ih =>
      rw [expandChars]
      simp only [List.length_cons, List.length_append]
      have := hf c
      omega

theorem count_expandChars (f : Char → List Char) (x : Char)
    (hf : ∀ c, (f c).count x = [c].count x) :
    ∀ l : List Char, (expandChars f l).count x = l.count x := by
  intro l
  induction l with
  | nil => rfl
  | cons c rest ih =>
      rw [expandChars, List.count_append, ih, hf c]
      have : ([c] ++ rest).count x = (c :: rest).count x := rfl
      rw [← this, List.count_append]

theorem needsQuoting_iff (s : String) :
    needsQuoting s = true ↔ (',' ∈ s.data ∨ '\n' ∈ s.data ∨ pyStrip s ≠ s) := by
  rw [needsQuoting]
  simp [List.any_eq_true]
  tauto

theorem data_escapeQuote (s : String) :
    (escapeQuote s).data = '"' :: (escapedBody s).data ++ ['"'] := by
  rw [escapeQuote, String.data_append, String.data_append]
  rfl

theorem length_le_escapedBody (s : String) :
    s.data.length ≤ (escapedBody s).data.length := by
  rw [escapedBody, pyReplaceChar, pyReplaceChar]
  refine le_trans (length_le_expandChars _ (fun c => ?_) s.data)
    (length_le_expandChars _ (fun c => ?_) _)
  · by_cases h : c == '\\' <;> simp [h]
  · by_cases h : c == '"' <;> simp [h]

theorem escapeQuote_ne (s : String) : escapeQuote s ≠ s := by
  intro h
  have hlen : (escapeQuote s).data.length = s.data.length := by rw [h]
  rw [data_escapeQuote] at hlen
  simp only [List.length_append, List.length_cons] at hlen
  have := length_le_escapedBody s
  omega

theorem count_escapedBody (s : String) (x : Char) (hx1 : x ≠ '\\') (hx2 : x ≠ '"') :
    (escapedBody s).data.count x = s.data.count x := by
  rw [escapedBody, pyReplaceChar, pyReplaceChar]
  show (expandChars _ (expandChars _ s.data)).count x = _
  rw [count_expandChars _ x (fun c => ?side2) _, count_expandChars _ x (fun c => ?side1) _]
  case side1 =>
    by_cases h : c == '\\'
    · have : c = '\\' := by simpa using h
      subst this
      simp [h, List.count_cons, hx1, Ne.symm hx1]
    · simp [h]
  case side2 =>
    by_cases h : c == '"'
    · have : c = '"' := by simpa using h
      subst this
      simp [h, List.count_cons, hx1, hx2, Ne.symm hx1, Ne.symm hx2]
    · simp [h]

/-! Facts about `model_dump`. -/

theorem model_dump_fields_names (m : List (String × Value)) :
    (model_dump_fields m).map Prod.fst = m.map Prod.fst := by
  induction m with
  | nil => rfl
  | cons p rest ih =>
      obtain ⟨n, v⟩ := p
      rw [model_dump_fields]
      simp [ih]

theorem getField_model_dump_fields (m : List (String × Value)) (f : String) :
    getField (model_dump_fields m) f = (getField m f).map model_dump := by
  induction m with
  | nil => rfl
  | cons p rest ih =>
      obtain ⟨n, v⟩ := p
      rw [model_dump_fields, getField, getField]
      by_cases h : n == f
      · simp [List.find?_cons, h]
      · simp only [List.find?_cons, h]
        exact ih

theorem model_dump_not_record (v : Value) : (model_dump v).isRecord = false := by
  cases v <;> rfl

/-! `sdv` is `_serialize_value` composed with `model_dump`: the fused
definition used for table cells agrees with serializing the dumped
value directly, as the Python source does. -/

mutual

theorem sdv_eq_serialize_value : (v : Value) → (L : Nat) →
    sdv v L = serialize_value (model_dump v) L
  | .null, _ => rfl
  | .bool _, _ => rfl
  | .num _, _ => rfl
  | .temporal _, _ => rfl
  | .str _, _ => rfl
  | .record fs, L => congrArg (joinSep "\n") (sdvEntries_eq fs L)
  | .list [], _ => rfl
  | .list (v :: rest), L => by
      have h := sdvItems_eq (v :: rest)
      show "[" ++ joinSep "," (sdvItems (v :: rest)) ++ "]"
        = serialize_value (.list (model_dump v :: model_dump_list rest)) L
      rw [h]
      simp only [serialize_value, List.all_cons, model_dump_not_record, Bool.false_and,
        Bool.if_false_left, Bool.not_false, Bool.true_and, if_false]
      rfl
  | .dict fs, L => congrArg (joinSep "\n") (sdvEntries_eq fs L)
  | .other _, _ => rfl

theorem sdvEntries_eq : (fs : List (String × Value)) → (L : Nat) →
    sdvEntries fs L = dictLines (model_dump_fields fs) L
  | [], _ => rfl
  | (k, v) :: rest, L => by
      simp only [sdvEntries, model_dump_fields, dictLines]
      rw [sdv_eq_serialize_value v (L + 1), sdvEntries_eq rest L]

theorem sdvItems_eq : (l : List Value) → sdvItems l = flatItems (model_dump_list l)
  | [] => rfl
  | v :: rest => by
      simp only [sdvItems, model_dump_list, flatItems]
      rw [sdv_eq_serialize_value v 0, sdvItems_eq rest]

end

/-- A table cell is exactly what the Python source computes:
`_serialize_value(model.model_dump().get(field), 0)` (a missing key
giving `None`). -/
theorem rowCell_source (m : List (String × Value)) (f : String) :
    rowCell m f = serialize_value ((getField (model_dump_fields m) f).getD Value.null) 0 := by
  rw [rowCell, getField_model_dump_fields]
  cases h : getField m f with
  | none => rfl
  | some v =>
      simp only [Option.map_some, Option.getD_some]
      exact sdv_eq_serialize_value v 0

/-- Unfolding of the tabular encoder on a non-empty list: header from
the first model's field names, then one row per model. -/
theorem serialize_list_of_models_cons (first : List (String × Value))
    (rest : List (List (String × Value))) (L : Nat) :
    serialize_list_of_models (first :: rest) L =
      joinSep "\n"
        ((ind L ++ "[" ++ Nat.repr (first :: rest).length ++ "]\x7b"
            ++ joinSep "," (first.map Prod.fst) ++ "\x7d:")
          :: (first :: rest).map (fun m =>
            ind L ++ "  " ++ joinSep ","
              ((first.map Prod.fst).map (fun f => rowCell m f)))) := by
  rw [serialize_list_of_models]
  simp only [model_dump_fields_names]

/-! The claims. -/

/-- Claim C1: encoding the homogeneous list of the two records
(id 1, Alice, Engineering, 120000) and (id 2, Bob, Marketing, 95000)
at indentation level 0 produces exactly the header line
`[2]{id,name,department,salary}:` followed by the rows
`  1,Alice,Engineering,120000` and `  2,Bob,Marketing,95000`, each row
prefixed with two spaces, joined by single newlines, with no trailing
newline. -/
theorem toon_C1 :
    serialize (Value.list
      [Value.record [("id", Value.num "1"), ("name", Value.str "Alice"),
        ("department", Value.str "Engineering"), ("salary", Value.num "120000")],
       Value.record [("id", Value.num "2"), ("name", Value.str "Bob"),
        ("department", Value.str "Marketing"), ("salary", Value.num "95000")]]) 0 =
      Except.ok ("[2]\x7bid,name,department,salary\x7d:"
        ++ "\n" ++ "  1,Alice,Engineering,120000"
        ++ "\n" ++ "  2,Bob,Marketing,95000")
    ∧ physLines ("[2]\x7bid,name,department,salary\x7d:"
        ++ "\n" ++ "  1,Alice,Engineering,120000"
        ++ "\n" ++ "  2,Bob,Marketing,95000") =
      ["[2]\x7bid,name,department,salary\x7d:",
       "  1,Alice,Engineering,120000",
       "  2,Bob,Marketing,95000"] :=
  ⟨rfl, rfl⟩

/-- Claim C6: encoding a list with zero elements yields exactly `[]`
and does not fail: at the top level of `serialize`, in the tabular
encoder itself, and nested as a field value (where the field line
becomes `name: []`). -/
theorem toon_C6 :
    serialize (Value.list []) 0 = Except.ok "[]"
    ∧ (∀ L : Nat, serialize_value (Value.list []) L = "[]")
    ∧ (∀ L : Nat, serialize_list_of_models [] L = "[]")
    ∧ serialize_object [("employees", Value.list [])] 0 = "employees: []" :=
  ⟨rfl, fun _ => rfl, fun _ => rfl, rfl⟩

/-- Claim C7: for every string with no comma, no newline and no
leading or trailing whitespace, the value encoder returns the string
itself, unquoted and unchanged, at any indentation level.  (The spec's
`encode(string) == string` identity law, section 8; the top-level
dispatcher itself accepts only records and lists, see C3.) -/
theorem toon_C7 (s : String) (L : Nat) (h1 : ',' ∉ s.data) (h2 : '\n' ∉ s.data)
    (h3 : pyStrip s = s) : serialize_value (Value.str s) L = s := by
  show encodeText s = s
  rw [encodeText, if_neg]
  intro hq
  rcases (needsQuoting_iff s).mp hq with h | h | h
  · exact h1 h
  · exact h2 h
  · exact h h3

/-- Witness for C7 at a concrete input. -/
theorem toon_C7_witness : serialize_value (Value.str "Engineering") 0 = "Engineering" :=
  toon_C7 "Engineering" 0 (by decide) (by decide) (by decide)

/-- Claim C4 is a code bug: for a record field holding a mapping with
several keys (Scenario D), the code emits the first mapping entry ON
THE SAME LINE as the field name (`metadata:    key1: value1`), because
`_serialize_object` concatenates `f"{indent}{field_name}:{serialized_val}"`
without a newline and the dict rendering does not start with one; the
claim (and spec Scenario D, and the code's own comment `Multi-line
values get their own line`) require `metadata:` alone on its own
line. -/
theorem toon_C4_bug :
    serialize_object [("metadata", Value.dict
      [("key1", Value.str "value1"), ("key2", Value.num "42"),
       ("key3", Value.bool true)])] 0
      = "metadata:    key1: value1\n    key2: 42\n    key3: true"
    ∧ hasNL (serialize_value (Value.dict
        [("key1", Value.str "value1"), ("key2", Value.num "42"),
         ("key3", Value.bool true)]) 1) = true
    ∧ serialize_object [("metadata", Value.dict
        [("key1", Value.str "value1"), ("key2", Value.num "42"),
         ("key3", Value.bool true)])] 0
      ≠ "metadata:\n    key1: value1\n    key2: 42\n    key3: true" :=
  ⟨rfl, rfl, by decide⟩

/-- Claim C8 is a code bug: indentation is NOT uniformly two spaces
per nesting level.  For a record field holding a nested mapping
`meta: \x7ba: \x7bb: 1, c: 2\x7d\x7d`, the sibling keys `b` and `c` of the same
inner mapping are emitted with 12 and 6 leading spaces respectively:
the dict branch prefixes `f"{indent}    "` onto an already fully
indented multi-line block, re-indenting only its first line (and the
inner block's key `a` is glued onto the `meta:` field line, see C4). -/
theorem toon_C8_bug :
    serialize_object [("meta", Value.dict
      [("a", Value.dict [("b", Value.num "1"), ("c", Value.num "2")])])] 0
      = "meta:    a:\n            b: 1\n      c: 2"
    ∧ physLines (serialize_object [("meta", Value.dict
        [("a", Value.dict [("b", Value.num "1"), ("c", Value.num "2")])])] 0)
      = ["meta:    a:", "            b: 1", "      c: 2"] :=
  ⟨rfl, rfl⟩

/-- Claim C2: the encoded form of a text value is the raw text
unchanged if and only if the text contains no comma, no newline and
equals its own trimmed form; otherwise the encoded form is the
spec's quoted-form construction (backslashes doubled first, then
double quotes escaped, then wrapped in quotes), and any comma in the
text is preserved literally inside the quotes. -/
theorem toon_C2 (s : String) :
    (encodeText s = s ↔ ¬(',' ∈ s.data ∨ '\n' ∈ s.data ∨ pyStrip s ≠ s))
    ∧ ((',' ∈ s.data ∨ '\n' ∈ s.data ∨ pyStrip s ≠ s) →
        encodeText s = specQuotedForm s
        ∧ (escapedBody s).data.count ',' = s.data.count ',') := by
  constructor
  · constructor
    · intro heq htrig
      have hq : needsQuoting s = true := (needsQuoting_iff s).mpr htrig
      rw [encodeText, if_pos hq] at heq
      exact escapeQuote_ne s heq
    · intro hnot
      rw [encodeText, if_neg (fun hq => hnot ((needsQuoting_iff s).mp hq))]
  · intro htrig
    have hq := (needsQuoting_iff s).mpr htrig
    refine ⟨?_, count_escapedBody s ',' (by decide) (by decide)⟩
    rw [encodeText, if_pos hq]
    rfl

/-- Witness for C2 at the concrete input `"a,b"`. -/
theorem toon_C2_witness :
    encodeText "a,b" = specQuotedForm "a,b"
    ∧ (escapedBody "a,b").data.count ',' = "a,b".data.count ',' :=
  (toon_C2 "a,b").2 (Or.inl (by decide))

/-- Claim C10: for every string containing a newline, the encoded
form is the quoted construction, the newline count is preserved
literally inside the quotes (only backslashes and double quotes are
replaced), and the encoded scalar spans at least two physical lines
of output. -/
theorem toon_C10 (s : String) (h : '\n' ∈ s.data) :
    encodeText s = specQuotedForm s
    ∧ (escapedBody s).data.count '\n' = s.data.count '\n'
    ∧ 2 ≤ (physLines (encodeText s)).length := by
  have htrig : (',' ∈ s.data ∨ '\n' ∈ s.data ∨ pyStrip s ≠ s) := Or.inr (Or.inl h)
  have hq := (needsQuoting_iff s).mpr htrig
  have hcount : (escapedBody s).data.count '\n' = s.data.count '\n' :=
    count_escapedBody s '\n' (by decide) (by decide)
  have henc : encodeText s = escapeQuote s := by rw [encodeText, if_pos hq]
  refine ⟨by rw [henc]; rfl, hcount, ?_⟩
  rw [henc]
  have hlen : (physLines (escapeQuote s)).length = 1 + (escapeQuote s).data.count '\n' := by
    rw [physLines, List.length_map, splitNL_length]
  have hbody : (escapeQuote s).data.count '\n' = (escapedBody s).data.count '\n' := by
    rw [data_escapeQuote]
    simp [List.count_append, List.count_cons]
  have hpos : 0 < s.data.count '\n' := List.count_pos_iff.mpr h
  rw [hlen, hbody, hcount]
  omega

/-- Witness for C10 at the concrete input `"a\nb"`. -/
theorem toon_C10_witness :
    encodeText "a\nb" = specQuotedForm "a\nb"
    ∧ 2 ≤ (physLines (encodeText "a\nb")).length :=
  ⟨(toon_C10 "a\nb" (by decide)).1, (toon_C10 "a\nb" (by decide)).2.2⟩

/-- Counterexample to claim C3 as stated: the heterogeneous-top-level
-list condition is NOT the only validated error condition.  The
dispatcher also fails on a top-level value that is neither a list nor
a record: `serialize("hello")` raises
`ValueError(f"Unsupported type: ...")` (pydantic_toon.py line 210),
although `"hello"` is not a list at all. -/
theorem toon_C3_cex :
    serialize (Value.str "hello") 0 = Except.error ("Unsupported type: " ++ pyTypeName (Value.str "hello"))
    ∧ Value.isList (Value.str "hello") = false :=
  ⟨rfl, rfl⟩

/-- Claim C3, amended: a top-level list containing any non-record
fails with the heterogeneous-list error and produces no output; a
top-level list of records does not fail and invokes the tabular path
at the given level; the dispatcher has exactly one FURTHER validated
error condition — a top-level value that is neither a list nor a
record — and within the recursive value encoder every unrecognized
leaf value category degrades to the value's default textual form and
never fails. -/
theorem toon_C3_amended :
    (∀ l : List Value, l.all Value.isRecord = false →
      serialize (Value.list l) 0 = Except.error "All items in list must be Pydantic models")
    ∧ (∀ l : List Value, l.all Value.isRecord = true →
      serialize (Value.list l) 0 = Except.ok (serialize_list_of_models (l.map Value.recFields) 0))
    ∧ (∀ v : Value, v.isList = false → v.isRecord = false →
      serialize v 0 = Except.error ("Unsupported type: " ++ pyTypeName v))
    ∧ (∀ (s : String) (L : Nat), serialize_value (Value.other s) L = s) := by
  refine ⟨fun l hl => ?_, fun l hl => ?_, fun v h1 h2 => ?_, fun s L => rfl⟩
  · rw [serialize, if_neg (by simp [hl])]
  · rw [serialize, if_pos hl]
  · cases v <;> first | rfl | (exact absurd rfl (by simp_all)) | simp_all [Value.isList, Value.isRecord]

/-- Witness for the amended C3 at concrete inputs: a heterogeneous
list fails, a list of records succeeds, a bare boolean fails with the
other error, and the fallback branch returns the raw text. -/
theorem toon_C3_witness :
    serialize (Value.list [Value.num "1"]) 0
      = Except.error "All items in list must be Pydantic models"
    ∧ serialize (Value.list [Value.record [("id", Value.num "1")]]) 0
      = Except.ok (serialize_list_of_models [[("id", Value.num "1")]] 0)
    ∧ serialize (Value.bool true) 0 = Except.error ("Unsupported type: " ++ pyTypeName (Value.bool true))
    ∧ serialize_value (Value.other "object repr") 3 = "object repr" :=
  ⟨toon_C3_amended.1 [Value.num "1"] rfl,
   toon_C3_amended.2.1 [Value.record [("id", Value.num "1")]] rfl,
   toon_C3_amended.2.2.1 (Value.bool true) rfl rfl,
   toon_C3_amended.2.2.2 "object repr" 3⟩

/-- Claim C9: in the tabular encoding of a non-empty list of records,
the header's field names come solely from the first element; each row
is built by looking up each first-element field name in that element,
rendering `null` for a missing name; and a row depends only on those
lookups, so any field of an element absent from the first element is
silently ignored — no error is possible (the encoder is total). -/
theorem toon_C9 (first : List (String × Value)) (rest : List (List (String × Value))) (L : Nat) :
    (serialize_list_of_models (first :: rest) L =
      joinSep "\n"
        ((ind L ++ "[" ++ Nat.repr (first :: rest).length ++ "]\x7b"
            ++ joinSep "," (first.map Prod.fst) ++ "\x7d:")
          :: (first :: rest).map (fun m =>
            ind L ++ "  " ++ joinSep ","
              ((first.map Prod.fst).map (fun f => rowCell m f)))))
    ∧ (∀ (m : List (String × Value)) (f : String),
        getField m f = none → rowCell m f = "null")
    ∧ (∀ m m2 : List (String × Value),
        (∀ f ∈ first.map Prod.fst, getField m f = getField m2 f) →
        (first.map Prod.fst).map (fun f => rowCell m f)
          = (first.map Prod.fst).map (fun f => rowCell m2 f)) := by
  refine ⟨serialize_list_of_models_cons first rest L, fun m f h => ?_, fun m m2 hag => ?_⟩
  · rw [rowCell, h]
    rfl
  · refine List.map_congr_left (fun f hf => ?_)
    rw [rowCell, rowCell, hag f hf]

/-- Witness for C9 at concrete inputs: a model lacking the first
model's field `x` renders `null` there, and a model carrying an extra
field `extra` (absent from the first model) yields the same cells as
the same model without it. -/
theorem toon_C9_witness :
    rowCell [("id", Value.num "2"), ("z", Value.str "w")] "x" = "null"
    ∧ (["id", "x"].map (fun f =>
        rowCell [("id", Value.num "1"), ("x", Value.str "y"), ("extra", Value.num "9")] f)
      = ["id", "x"].map (fun f => rowCell [("id", Value.num "1"), ("x", Value.str "y")] f)) :=
  ⟨(toon_C9 [("id", Value.num "1"), ("x", Value.str "y")] [] 0).2.1
      [("id", Value.num "2"), ("z", Value.str "w")] "x" rfl,
   (toon_C9 [("id", Value.num "1"), ("x", Value.str "y")] [] 0).2.2
      [("id", Value.num "1"), ("x", Value.str "y"), ("extra", Value.num "9")]
      [("id", Value.num "1"), ("x", Value.str "y")]
      (by intro f hf; fin_cases hf <;> rfl)⟩

/-- Claim C5: for every non-empty list of records sharing the same
field-name sequence `fs` (with single-line cell encodings, as the
claim's flat single-line row context prescribes, and field names free
of newlines), the encoder emits the header
`[k]{f1,...,fk'}:` — decimal element count, field names comma-joined
with no spaces in shared declared order — followed by exactly one row
line per element at one indentation level deeper, each row the
comma-join of exactly one cell per field in field order; and every
text field value containing a literal comma is rendered through the
escaper's quoting path. -/
theorem toon_C5 (models : List (List (String × Value))) (fs : List String) (L : Nat)
    (hne : models ≠ [])
    (hshare : ∀ m ∈ models, m.map Prod.fst = fs)
    (hclean : ∀ f ∈ fs, hasNL f = false)
    (hflat : ∀ m ∈ models, ∀ f ∈ fs, hasNL (rowCell m f) = false) :
    physLines (serialize_list_of_models models L) =
      (ind L ++ "[" ++ Nat.repr models.length ++ "]\x7b" ++ joinSep "," fs ++ "\x7d:")
        :: models.map (fun m => ind (L + 1) ++ joinSep "," (fs.map (fun f => rowCell m f)))
    ∧ (∀ m ∈ models, ∀ (f t : String),
        getField m f = some (Value.str t) → ',' ∈ t.data → rowCell m f = escapeQuote t) := by
  constructor
  · obtain ⟨first, rest, rfl⟩ : ∃ x xs, models = x :: xs := by
      cases models with
      | nil => exact absurd rfl hne
      | cons x xs => exact ⟨x, xs, rfl⟩
    have hfs : first.map Prod.fst = fs := hshare first (by simp)
    rw [serialize_list_of_models_cons, hfs]
    have hj : hasNL (joinSep "," fs) = false := hasNL_joinSep "," fs (by decide) hclean
    have hheader : hasNL (ind L ++ "[" ++ Nat.repr (first :: rest).length ++ "]\x7b"
        ++ joinSep "," fs ++ "\x7d:") = false := by
      simp [hasNL_append, hasNL_ind, hasNL_natRepr, hj,
        show hasNL "[" = false from by decide,
        show hasNL "]\x7b" = false from by decide,
        show hasNL "\x7d:" = false from by decide]
    have hrow : ∀ m ∈ first :: rest,
        hasNL (ind L ++ "  " ++ joinSep "," (fs.map (fun f => rowCell m f))) = false := by
      intro m hm
      have hcells : hasNL (joinSep "," (fs.map (fun f => rowCell m f))) = false := by
        refine hasNL_joinSep "," _ (by decide) ?_
        intro x hx
        obtain ⟨f, hf, rfl⟩ := List.mem_map.mp hx
        exact hflat m hm f hf
      simp [hasNL_append, hasNL_ind, hcells, show hasNL "  " = false from by decide]
    rw [physLines_joinSep _ (by simp) ?_]
    · congr 1
      refine List.map_congr_left (fun m hm => ?_)
      rw [← ind_succ]
    · intro x hx
      rcases List.mem_cons.mp hx with rfl | hx2
      · exact hheader
      · obtain ⟨m, hm, rfl⟩ := List.mem_map.mp hx2
        exact hrow m hm
  · intro m hm f t hget hc
    rw [rowCell, hget]
    show encodeText t = escapeQuote t
    rw [encodeText, if_pos ((needsQuoting_iff t).mpr (Or.inl hc))]

/-- Witness for C5 at a concrete two-record list whose first field
value contains a comma. -/
theorem toon_C5_witness :
    physLines (serialize_list_of_models
      [[("a", Value.str "x,y"), ("b", Value.num "1")],
       [("a", Value.str "p"), ("b", Value.num "2")]] 0)
      = ["[2]\x7ba,b\x7d:", "  \"x,y\",1", "  p,2"]
    ∧ rowCell [("a", Value.str "x,y"), ("b", Value.num "1")] "a" = escapeQuote "x,y" := by
  have h := toon_C5
    [[("a", Value.str "x,y"), ("b", Value.num "1")],
     [("a", Value.str "p"), ("b", Value.num "2")]] ["a", "b"] 0
    (by simp) (by decide) (by decide) (by decide)
  exact ⟨h.1.trans (by decide),
    h.2 [("a", Value.str "x,y"), ("b", Value.num "1")] (by simp) "a" "x,y" rfl (by decide)⟩
